import Mathlib

/-!
Verification of the agentic tool-calling control loop of the course-materials
RAG chatbot. The controller (`backend/ai_generator.py`, class `AIGenerator`)
is embedded shallowly: the model backend is an oracle list of responses
consumed in order, the tool manager is a function returning `Except` (error =
Python exception), and every request issued to the backend is recorded so
that call counts and request parameters can be reasoned about.
-/

/-- Keyword arguments of a tool invocation (`content_block.input`), passed
through untouched by the controller. -/
abbrev ToolInput := List (String × String)

/-- A tool definition in the catalog; the controller only passes each
entry along, so it is embedded as an abstract payload. -/
abbrev ToolDef := String

/-- A content block of a model response: either a text block or a tool-use
block carrying a name, a unique invocation id and the argument mapping. -/
inductive ContentBlock where
  | text (t : String)
  | toolUse (name : String) (id : String) (input : ToolInput)
deriving Repr, DecidableEq

/-- A model response: `stop_reason` and the content block sequence. -/
structure Response where
  stop_reason : String
  content : List ContentBlock
deriving Repr, DecidableEq

/-- Reading `response.content[0].text`: succeeds only when the first content
block exists and is a text block (otherwise Python raises). -/
def Response.firstText (r : Response) : Option String :=
  match r.content with
  | ContentBlock.text t :: _ => some t
  | _ => none

/-- A tool result entry (`{"type": "tool_result", "tool_use_id": ..,
"content": ..}`); the constant type tag is left implicit. -/
structure ToolResult where
  tool_use_id : String
  content : String
deriving Repr, DecidableEq

/-- Content of a conversation message: the initial plain-text user query, an
assistant turn holding the model content blocks, or a user turn bundling
tool results. -/
inductive MessageContent where
  | text (s : String)
  | blocks (bs : List ContentBlock)
  | results (rs : List ToolResult)
deriving Repr, DecidableEq

/-- A conversation message with its role. -/
structure Message where
  role : String
  content : MessageContent
deriving Repr, DecidableEq

/-- One request to the model backend, as assembled in `api_params`: `none`
in `tools` / `tool_choice` means the key is absent. -/
structure Request where
  messages : List Message
  system : String
  tools : Option (List ToolDef)
  tool_choice : Option String
deriving Repr, DecidableEq

/-- The tool manager seen by the controller: `execute_tool(name, **input)`,
with `Except.error e` standing for a raised exception with message `e`. -/
abbrev ToolManager := String → ToolInput → Except String String

/-- The tool-use blocks of a response content list, in order, as
(name, id, input) triples. -/
def toolUseBlocks : List ContentBlock → List (String × String × ToolInput)
  | [] => []
  | ContentBlock.text _ :: rest => toolUseBlocks rest
  | ContentBlock.toolUse name id input :: rest => (name, id, input) :: toolUseBlocks rest

/-- Embedding of `AIGenerator._execute_tool_calls`: iterate over the content
blocks, execute each tool-use block; a raised exception becomes a tool
result whose content is the message prefixed with the error marker, and sets
`had_error`. Returns `(tool_results, had_error)`. -/
def execute_tool_calls (tm : ToolManager) : List ContentBlock → List ToolResult × Bool
  | [] => ([], false)
  | ContentBlock.text _ :: rest => execute_tool_calls tm rest
  | ContentBlock.toolUse name id input :: rest =>
    let r : ToolResult × Bool :=
      match tm name input with
      | Except.ok out => (⟨id, out⟩, false)
      | Except.error e => (⟨id, "Tool execution error: " ++ e⟩, true)
    let tail := execute_tool_calls tm rest
    (r.1 :: tail.1, r.2 || tail.2)

/-- The tool result produced for one tool-use block (name, id, input):
success wraps the return value, an exception is wrapped with the error
marker. -/
def blockResult (tm : ToolManager) (b : String × String × ToolInput) : ToolResult :=
  match tm b.1 b.2.2 with
  | Except.ok out => ⟨b.2.1, out⟩
  | Except.error e => ⟨b.2.1, "Tool execution error: " ++ e⟩

/-- Whether executing one tool-use block raises. -/
def blockRaises (tm : ToolManager) (b : String × String × ToolInput) : Bool :=
  match tm b.1 b.2.2 with
  | Except.ok _ => false
  | Except.error _ => true

/-- State of a run against the model backend: the remaining oracle of
responses (the backend answers the k-th request with the k-th oracle entry;
an exhausted oracle is a backend failure), the requests issued so far, and
the tool invocations made so far. -/
structure GenState where
  oracle : List Response
  log : List Request
  calls : List (String × ToolInput)
deriving Repr, DecidableEq

/-- One `client.messages.create(**api_params)` call: records the request and
consumes the next oracle response; `none` is a backend failure (which the
controller lets propagate). -/
def callModel (req : Request) (s : GenState) : Option Response × GenState :=
  match s.oracle with
  | [] => (none, { s with log := s.log ++ [req] })
  | r :: rest => (some r, { s with oracle := rest, log := s.log ++ [req] })

/-- Truthiness of the `tools` argument (`if tools:` in Python): present and
non-empty. -/
def toolsTruthy : Option (List ToolDef) → Bool
  | none => false
  | some l => !l.isEmpty

/-- The request issued inside the loop: the catalog and the automatic
tool-choice policy are attached only when `tools` is truthy (set once in
`api_params` before the loop and kept for every round). -/
def loopRequest (msgs : List Message) (sys : String) (tools : Option (List ToolDef)) :
    Request :=
  if toolsTruthy tools then ⟨msgs, sys, tools, some "auto"⟩
  else ⟨msgs, sys, none, none⟩

/-- Outcome of the `for _ in range(MAX_TOOL_ROUNDS)` loop: an early return
with the response text (termination B), an exit falling through to the
synthesis call — carrying the accumulated messages and whether the exit was
the `had_error` break (termination C) or round exhaustion (termination A) —
or a propagated failure (backend failure, or a first content block without
a `text` attribute). -/
inductive LoopOut where
  | returned (text : String)
  | exited (msgs : List Message) (byError : Bool)
  | failed (msg : String)
deriving Repr, DecidableEq

/-- Bound on the tool-execution loop, `AIGenerator.MAX_TOOL_ROUNDS`. -/
def MAX_TOOL_ROUNDS : Nat := 2

/-- The loop body of `AIGenerator.generate_response`: issue one request;
return the response text unless the stop reason is tool use and a tool
manager is present; otherwise execute the tool calls, append the assistant
tool-use turn and the bundled results as a user message, and either break on
error or continue to the next round. -/
def genLoop (sys : String) (tools : Option (List ToolDef)) (tm : Option ToolManager) :
    Nat → List Message → GenState → LoopOut × GenState
  | 0, msgs, s => (LoopOut.exited msgs false, s)
  | fuel + 1, msgs, s =>
    match callModel (loopRequest msgs sys tools) s with
    | (none, s1) => (LoopOut.failed "model backend failure", s1)
    | (some resp, s1) =>
      match tm with
      | some tmgr =>
        if resp.stop_reason == "tool_use" then
          let out := execute_tool_calls tmgr resp.content
          let msgs2 := msgs ++ [⟨"assistant", MessageContent.blocks resp.content⟩,
                                ⟨"user", MessageContent.results out.1⟩]
          let s2 := { s1 with
            calls := s1.calls ++ (toolUseBlocks resp.content).map (fun b => (b.1, b.2.2)) }
          if out.2 then (LoopOut.exited msgs2 true, s2)
          else genLoop sys tools tm fuel msgs2 s2
        else
          match resp.firstText with
          | some t => (LoopOut.returned t, s1)
          | none => (LoopOut.failed "no text attribute on first content block", s1)
      | none =>
        match resp.firstText with
        | some t => (LoopOut.returned t, s1)
        | none => (LoopOut.failed "no text attribute on first content block", s1)

/-- How a run of `generate_response` ended, following the labels used by the source comments: B = natural end inside the loop, A = rounds exhausted, C = tool
failure (both A and C are followed by the synthesis call), or a propagated
failure inside the loop. -/
inductive Term where
  | doneB
  | exhaustedA
  | toolErrorC
  | failedRun
deriving Repr, DecidableEq

deriving instance DecidableEq for Except

/-- Observable outcome of one `generate_response` execution: the returned
text (or propagated failure), every request issued to the model backend in
order, every tool invocation made in order, and the termination kind. -/
structure Run where
  result : Except String String
  log : List Request
  calls : List (String × ToolInput)
  term : Term
deriving Repr, DecidableEq

/-- Embedding of `AIGenerator.SYSTEM_PROMPT` (abbreviated to its opening
words; the controller only threads it through, so its exact text is
irrelevant to every claim except that it is a fixed non-empty constant). -/
def SYSTEM_PROMPT : String :=
  " You are an AI assistant specialized in course materials and educational content with access to a comprehensive search tool for course information."

/-- Building the system content: the fixed preamble, with the conversation
history appended after the separator when it is truthy (present and
non-empty). -/
def build_system (history : Option String) : String :=
  match history with
  | some h =>
    if h.isEmpty then SYSTEM_PROMPT
    else SYSTEM_PROMPT ++ "\n\nPrevious conversation:\n" ++ h
  | none => SYSTEM_PROMPT

/-- Embedding of `AIGenerator.generate_response`: build the system content,
start from one user message holding the query, run the loop up to
`MAX_TOOL_ROUNDS` rounds, and on fall-through issue exactly one synthesis
request without tools and return its first text block. -/
def generate_response (query : String) (history : Option String)
    (tools : Option (List ToolDef)) (tm : Option ToolManager)
    (oracle : List Response) : Run :=
  let sys := build_system history
  let msgs : List Message := [⟨"user", MessageContent.text query⟩]
  match genLoop sys tools tm MAX_TOOL_ROUNDS msgs ⟨oracle, [], []⟩ with
  | (LoopOut.returned t, s) => ⟨Except.ok t, s.log, s.calls, Term.doneB⟩
  | (LoopOut.failed e, s) => ⟨Except.error e, s.log, s.calls, Term.failedRun⟩
  | (LoopOut.exited msgs2 byErr, s) =>
    let term := if byErr then Term.toolErrorC else Term.exhaustedA
    match callModel ⟨msgs2, sys, none, none⟩ s with
    | (none, s1) => ⟨Except.error "model backend failure", s1.log, s1.calls, term⟩
    | (some resp, s1) =>
      match resp.firstText with
      | some t => ⟨Except.ok t, s1.log, s1.calls, term⟩
      | none =>
        ⟨Except.error "no text attribute on first content block", s1.log, s1.calls, term⟩

/-- Role expected after one message, alternating between user and
assistant. -/
def flipRole (r : String) : String := if r == "user" then "assistant" else "user"

/-- Whether the roles of a message sequence alternate starting from the given
expected role. -/
def altRoles : List Message → String → Bool
  | [], _ => true
  | m :: rest, r => m.role == r && altRoles rest (flipRole r)

/-- The expected role after a message sequence, starting from the given
role. -/
def endRole : List Message → String → String
  | [], r => r
  | _ :: rest, r => endRole rest (flipRole r)


/-- Modelled from the spec: `search_tools.py` (class `CourseSearchTool`) is
not among the provided sources — only its tests are — so chunk metadata is
modelled from the specification: a course title and an optional lesson
number. -/
structure ChunkMeta where
  course_title : String
  lesson_number : Option Int
deriving Repr, DecidableEq

/-- Modelled from the spec: results of the retrieval store search — ranked
documents with per-chunk metadata, or an error condition. -/
structure SearchResults where
  documents : List String
  metadata : List ChunkMeta
  error : Option String
deriving Repr, DecidableEq

/-- Modelled from the spec: the retrieval store interface the tool uses —
search over optional course and lesson filters, and lesson-link
resolution. -/
structure VectorStore where
  search : String → Option String → Option Int → SearchResults
  get_lesson_link : String → Int → Option String

/-- Modelled from the spec: the retrieval tool instance — the store it
queries and the mutable citation list owned by the instance, overwritten on
every execution. -/
structure CourseSearchTool where
  store : VectorStore
  last_sources : List String

/-- Modelled from the spec: the formatted segment of one matched chunk — a
header label `[<course title>]` or `[<course title> - Lesson <n>]` depending
on whether lesson metadata is present, concatenated with the chunk text. -/
def formatSegment (meta : ChunkMeta) (doc : String) : String :=
  "[" ++ meta.course_title ++
    (match meta.lesson_number with
     | some n => " - Lesson " ++ toString n
     | none => "") ++ "]" ++ "\n" ++ doc

/-- Modelled from the spec: a citation display label (course title,
optionally " - Lesson N"). -/
def sourceLabel (meta : ChunkMeta) : String :=
  meta.course_title ++
    (match meta.lesson_number with
     | some n => " - Lesson " ++ toString n
     | none => "")

/-- Modelled from the spec: the citation display string — hyperlink-formatted
when the store resolves a lesson link, otherwise the plain label. -/
def citationOf (store : VectorStore) (meta : ChunkMeta) : String :=
  match meta.lesson_number with
  | some n =>
    match store.get_lesson_link meta.course_title n with
    | some url => "<a href=\"" ++ url ++ "\">" ++ sourceLabel meta ++ "</a>"
    | none => sourceLabel meta
  | none => sourceLabel meta

/-- The single-quote character, used by the no-content message. -/
def sglQuote : String := String.singleton (Char.ofNat 39)

/-- Modelled from the spec: the zero-match message, naming the active
course and lesson filters when present. -/
def noContentMessage (course_name : Option String) (lesson_number : Option Int) : String :=
  "No relevant content found" ++
    (match course_name with
     | some c => " in course " ++ sglQuote ++ c ++ sglQuote
     | none => "") ++
    (match lesson_number with
     | some n => " in lesson " ++ toString n
     | none => "") ++ "."

/-- Modelled from the spec: the retrieval tool execution — delegate to the
store search; on a store error return the error text verbatim (citations
untouched); on zero matches return the no-content message naming the active
filters; otherwise return the blank-line-joined formatted chunks and
overwrite the citation list with one citation per matched chunk. -/
def CourseSearchTool.execute (tool : CourseSearchTool) (query : String)
    (course_name : Option String) (lesson_number : Option Int) :
    String × CourseSearchTool :=
  let results := tool.store.search query course_name lesson_number
  match results.error with
  | some e => (e, tool)
  | none =>
    if results.documents.isEmpty then
      (noContentMessage course_name lesson_number, tool)
    else
      let pairs := results.documents.zip results.metadata
      (String.intercalate "\n\n" (pairs.map (fun p => formatSegment p.2 p.1)),
       { tool with last_sources := pairs.map (fun p => citationOf tool.store p.2) })

/-- A concrete two-then-one-results store for witnesses. -/
def demoStore : VectorStore :=
  ⟨fun q _ _ =>
     if q == "first" then ⟨["d1", "d2"], [⟨"A", some 1⟩, ⟨"B", some 2⟩], none⟩
     else ⟨["d3"], [⟨"C", some 3⟩], none⟩,
   fun _ _ => none⟩

/-- A fresh retrieval tool over the witness store. -/
def demoTool : CourseSearchTool := ⟨demoStore, []⟩

/-- Modelled from the spec: the fixed instructional template the
orchestrator wraps the raw query in. -/
def wrap_query (raw : String) : String :=
  "Answer this question about course materials: " ++ raw

/-- Modelled from the spec: the observable outcome of one orchestrator
query — the prompt sent to the controller, the fetched history, the answer,
and the exchange stored in the session (if any). -/
structure QueryOutcome where
  prompt : String
  history : Option String
  answer : String
  stored : Option (String × String × String)
deriving Repr, DecidableEq

/-- Modelled from the spec: `rag_system.py` (RAGSystem.query) is not among
the provided sources — only its tests are — so the orchestrator query is
modelled from the specification: wrap the raw text in the fixed template,
fetch history only when a session id is given, invoke the controller
(abstracted as a function of prompt and history), and store the raw —
unwrapped — text with the answer when a session id is given. -/
def rag_query (raw : String) (session_id : Option String)
    (generate : String → Option String → String)
    (get_history : String → Option String) : QueryOutcome :=
  let prompt := wrap_query raw
  let hist := match session_id with
    | some sid => get_history sid
    | none => none
  let answer := generate prompt hist
  ⟨prompt, hist, answer, session_id.map (fun sid => (sid, raw, answer))⟩

/-- Whether the word `w` occurs as a contiguous substring of `s`. -/
def occursIn (w s : String) : Bool := decide (w.data <:+: s.data)

/-- Characterisation of `_execute_tool_calls`: one result per tool-use
block, in block order, and the error flag is the disjunction of the
per-block failures. -/
theorem execute_tool_calls_eq (tm : ToolManager) (blocks : List ContentBlock) :
    execute_tool_calls tm blocks =
      ((toolUseBlocks blocks).map (blockResult tm),
       (toolUseBlocks blocks).any (blockRaises tm)) := by
  induction blocks with
  | nil => rfl
  | cons b rest ih =>
    cases b with
    | text t => simpa [execute_tool_calls, toolUseBlocks] using ih
    | toolUse name id input =>
      simp only [execute_tool_calls, toolUseBlocks, List.map_cons, List.any_cons, ih,
        blockResult, blockRaises]
      cases tm name input <;> simp

/-- Issuing one backend call appends exactly that request to the log. -/
theorem callModel_log (req : Request) (s : GenState) :
    ((callModel req s).2).log = s.log ++ [req] := by
  obtain ⟨oracle, log, calls⟩ := s
  cases oracle <;> rfl

/-- The loop request always carries the system content unchanged. -/
theorem loopRequest_system (ms : List Message) (sys : String) (tools : Option (List ToolDef)) :
    (loopRequest ms sys tools).system = sys := by
  unfold loopRequest; split <;> rfl

/-- Every request the loop issues is a loop request (current messages, the
fixed system content, the catalog-and-auto policy fixed before the loop). -/
theorem genLoop_log_shape (sys : String) (tools : Option (List ToolDef))
    (tm : Option ToolManager) :
    ∀ (fuel : Nat) (msgs : List Message) (s : GenState),
      ∃ L, ((genLoop sys tools tm fuel msgs s).2).log = s.log ++ L ∧
        ∀ req ∈ L, ∃ ms, req = loopRequest ms sys tools := by
  intro fuel
  induction fuel with
  | zero => intro msgs s; exact ⟨[], by simp [genLoop], by simp⟩
  | succ n ih =>
    intro msgs s
    obtain ⟨oracle, log, calls⟩ := s
    cases oracle with
    | nil =>
      refine ⟨[loopRequest msgs sys tools], by simp [genLoop, callModel], ?_⟩
      intro req hreq
      simp at hreq
      exact ⟨msgs, hreq⟩
    | cons r rest =>
      cases tm with
      | none =>
        cases hft : r.firstText <;>
          exact ⟨[loopRequest msgs sys tools], by simp [genLoop, callModel, hft],
            by intro req hreq; simp at hreq; exact ⟨msgs, hreq⟩⟩
      | some tmgr =>
        cases hb : r.stop_reason == "tool_use" with
        | false =>
          cases hft : r.firstText <;>
            exact ⟨[loopRequest msgs sys tools], by simp [genLoop, callModel, hb, hft],
              by intro req hreq; simp at hreq; exact ⟨msgs, hreq⟩⟩
        | true =>
          cases he : (execute_tool_calls tmgr r.content).2 with
          | true =>
            exact ⟨[loopRequest msgs sys tools], by simp [genLoop, callModel, hb, he],
              by intro req hreq; simp at hreq; exact ⟨msgs, hreq⟩⟩
          | false =>
            simp only [genLoop, callModel, hb, he, Bool.false_eq_true, ite_true, ite_false,
              if_true, if_false]
            obtain ⟨L, hL, hmem⟩ := ih
              (msgs ++ [⟨"assistant", MessageContent.blocks r.content⟩,
                ⟨"user", MessageContent.results (execute_tool_calls tmgr r.content).1⟩])
              ⟨rest, log ++ [loopRequest msgs sys tools],
               calls ++ (toolUseBlocks r.content).map (fun b => (b.1, b.2.2))⟩
            refine ⟨loopRequest msgs sys tools :: L, ?_, ?_⟩
            · rw [hL]; simp
            · intro req hreq
              rcases List.mem_cons.mp hreq with h1 | h1
              · exact ⟨msgs, h1⟩
              · exact hmem req h1

/-- Structure of the request log of a whole run: loop requests only when the run
returned inside the loop (or failed there), and loop requests followed by
exactly one catalog-free synthesis request when the loop fell through by
round exhaustion or by tool error. -/
theorem run_log_split (q : String) (h : Option String) (tools : Option (List ToolDef))
    (tm : Option ToolManager) (oracle : List Response) :
    ∃ L, (∀ req ∈ L, ∃ ms, req = loopRequest ms (build_system h) tools) ∧
      (((generate_response q h tools tm oracle).term = Term.doneB ∨
        (generate_response q h tools tm oracle).term = Term.failedRun) ∧
        (generate_response q h tools tm oracle).log = L ∨
       ((generate_response q h tools tm oracle).term = Term.toolErrorC ∨
        (generate_response q h tools tm oracle).term = Term.exhaustedA) ∧
        ∃ ms, (generate_response q h tools tm oracle).log =
          L ++ [⟨ms, build_system h, none, none⟩]) := by
  obtain ⟨L, hL, hmem⟩ := genLoop_log_shape (build_system h) tools tm MAX_TOOL_ROUNDS
    [⟨"user", MessageContent.text q⟩] ⟨oracle, [], []⟩
  refine ⟨L, hmem, ?_⟩
  simp only [generate_response]
  split
  case _ t s heq =>
    rw [heq] at hL
    simp at hL
    left
    exact ⟨Or.inl rfl, hL⟩
  case _ e s heq =>
    rw [heq] at hL
    simp at hL
    left
    exact ⟨Or.inr rfl, hL⟩
  case _ msgs2 byErr s heq =>
    rw [heq] at hL
    simp at hL
    right
    have hcl := callModel_log ⟨msgs2, build_system h, none, none⟩ s
    split
    case _ s1 heq2 =>
      rw [heq2] at hcl
      refine ⟨by cases byErr <;> simp, msgs2, ?_⟩
      simp only []
      rw [hcl, hL]
    case _ resp s1 heq2 =>
      rw [heq2] at hcl
      split
      case _ t hft =>
        refine ⟨by cases byErr <;> simp, msgs2, ?_⟩
        simp only []
        rw [hcl, hL]
      case _ hft =>
        refine ⟨by cases byErr <;> simp, msgs2, ?_⟩
        simp only []
        rw [hcl, hL]

/-- Every request a run issues carries the system content built from the
preamble and the optional history. -/
theorem run_log_system (q : String) (h : Option String) (tools : Option (List ToolDef))
    (tm : Option ToolManager) (oracle : List Response) :
    ∀ req ∈ (generate_response q h tools tm oracle).log, req.system = build_system h := by
  obtain ⟨L, hmem, hsplit⟩ := run_log_split q h tools tm oracle
  have hm2 : ∀ req ∈ L, req.system = build_system h := by
    intro req hr
    obtain ⟨ms, rfl⟩ := hmem req hr
    exact loopRequest_system ms _ tools
  rcases hsplit with ⟨_, hlog⟩ | ⟨_, ms, hlog⟩
  · intro req hr; rw [hlog] at hr; exact hm2 req hr
  · intro req hr
    rw [hlog] at hr
    rcases List.mem_append.mp hr with h1 | h1
    · exact hm2 req h1
    · simp at h1; rw [h1]

/-- C5: when a (non-empty) tool catalog is supplied, every request issued
inside the loop carries that catalog together with the automatic tool-choice
policy, and whenever the loop exits by round exhaustion or tool error the
one additional synthesis request carries no catalog and no tool-choice
parameter. -/
theorem C5_tool_catalog_policy (q : String) (h : Option String) (tl : List ToolDef)
    (tm : Option ToolManager) (oracle : List Response) (hne : tl ≠ []) :
    (∀ req ∈ (generate_response q h (some tl) tm oracle).log.dropLast,
        req.tools = some tl ∧ req.tool_choice = some "auto") ∧
    ((generate_response q h (some tl) tm oracle).term = Term.toolErrorC ∨
      (generate_response q h (some tl) tm oracle).term = Term.exhaustedA →
      ∃ req, (generate_response q h (some tl) tm oracle).log.getLast? = some req ∧
        req.tools = none ∧ req.tool_choice = none) ∧
    ((generate_response q h (some tl) tm oracle).term = Term.doneB →
      ∀ req ∈ (generate_response q h (some tl) tm oracle).log,
        req.tools = some tl ∧ req.tool_choice = some "auto") := by
  have htr : toolsTruthy (some tl) = true := by
    simp [toolsTruthy, hne]
  have hlr : ∀ ms : List Message, loopRequest ms (build_system h) (some tl) =
      ⟨ms, build_system h, some tl, some "auto"⟩ := by
    intro ms; simp [loopRequest, htr]
  obtain ⟨L, hmem, hsplit⟩ := run_log_split q h (some tl) tm oracle
  have hmem2 : ∀ req ∈ L, req.tools = some tl ∧ req.tool_choice = some "auto" := by
    intro req hr
    obtain ⟨ms, rfl⟩ := hmem req hr
    rw [hlr ms]
    exact ⟨rfl, rfl⟩
  rcases hsplit with ⟨hterm, hlog⟩ | ⟨hterm, ms, hlog⟩
  · refine ⟨?_, ?_, ?_⟩
    · intro req hr
      rw [hlog] at hr
      exact hmem2 req (List.dropLast_subset _ hr)
    · intro hAC
      rcases hterm with ht | ht <;> rcases hAC with ha | ha <;> rw [ht] at ha <;> simp at ha
    · intro _ req hr
      rw [hlog] at hr
      exact hmem2 req hr
  · refine ⟨?_, ?_, ?_⟩
    · intro req hr
      rw [hlog] at hr
      simp only [List.dropLast_concat] at hr
      exact hmem2 req hr
    · intro _
      refine ⟨⟨ms, build_system h, none, none⟩, ?_, rfl, rfl⟩
      rw [hlog]
      simp [List.getLast?_concat]
    · intro hd
      rcases hterm with ht | ht <;> rw [ht] at hd <;> simp at hd

/-- Witness for C5: a run with two tool rounds followed by round exhaustion;
its synthesis request carries no tools and no tool-choice. -/
theorem C5_tool_catalog_policy_witness :
    (["t1"] : List ToolDef) ≠ [] ∧
    (∃ req, (generate_response "q" none (some ["t1"])
        (some (fun _ _ => Except.ok "out"))
        [⟨"tool_use", [ContentBlock.toolUse "t1" "id1" []]⟩,
         ⟨"tool_use", [ContentBlock.toolUse "t1" "id2" []]⟩,
         ⟨"end_turn", [ContentBlock.text "ans"]⟩]).log.getLast? = some req ∧
      req.tools = none ∧ req.tool_choice = none) :=
  ⟨by decide,
   (C5_tool_catalog_policy "q" none ["t1"] (some (fun _ _ => Except.ok "out"))
      [⟨"tool_use", [ContentBlock.toolUse "t1" "id1" []]⟩,
       ⟨"tool_use", [ContentBlock.toolUse "t1" "id2" []]⟩,
       ⟨"end_turn", [ContentBlock.text "ans"]⟩] (by decide)).2.1 (Or.inr (by rfl))⟩

/-- C9: the system directive sent on every model request equals the fixed
preamble alone when no (truthy) history text is supplied, and the preamble
with the history text appended verbatim after the separator when a
non-empty history is supplied. -/
theorem C9_system_directive (q : String) (tools : Option (List ToolDef))
    (tm : Option ToolManager) (oracle : List Response) :
    (∀ req ∈ (generate_response q none tools tm oracle).log, req.system = SYSTEM_PROMPT) ∧
    (∀ hs : String, hs ≠ "" →
      ∀ req ∈ (generate_response q (some hs) tools tm oracle).log,
        req.system = SYSTEM_PROMPT ++ "\n\nPrevious conversation:\n" ++ hs) ∧
    (∀ req ∈ (generate_response q (some "") tools tm oracle).log,
        req.system = SYSTEM_PROMPT) := by
  refine ⟨?_, ?_, ?_⟩
  · intro req hr
    have := run_log_system q none tools tm oracle req hr
    simpa [build_system] using this
  · intro hs hne req hr
    have hie : hs.isEmpty = false := by
      cases hi : hs.isEmpty with
      | false => rfl
      | true => exact absurd ((String.isEmpty_iff hs).mp hi) hne
    have := run_log_system q (some hs) tools tm oracle req hr
    simpa [build_system, hie] using this
  · intro req hr
    have := run_log_system q (some "") tools tm oracle req hr
    simpa [build_system] using this

set_option maxRecDepth 4000 in
/-- Witness for C9: with history "H" the single request of a direct-answer
run carries the preamble with "H" appended after the separator. -/
theorem C9_system_directive_witness :
    ("H" ≠ "") ∧
    (⟨[⟨"user", MessageContent.text "q"⟩],
      SYSTEM_PROMPT ++ "\n\nPrevious conversation:\n" ++ "H", none, none⟩ : Request).system =
      SYSTEM_PROMPT ++ "\n\nPrevious conversation:\n" ++ "H" :=
  ⟨by decide,
   (C9_system_directive "q" none none [⟨"end_turn", [ContentBlock.text "a"]⟩]).2.1 "H"
     (by decide)
     ⟨[⟨"user", MessageContent.text "q"⟩],
      SYSTEM_PROMPT ++ "\n\nPrevious conversation:\n" ++ "H", none, none⟩
     (by exact List.mem_singleton.mpr rfl)⟩

/-- C10: within a single round, every tool-use block of the response is
executed in order even after an earlier block raised; the bundled results
hold exactly one tool result per tool-use block, in block order (each
carrying the invocation id of that block and its success output or
error-marker-prefixed message), and the failure flag is set if and only if
at least one execution raised. -/
theorem C10_round_executes_all_blocks (tm : ToolManager) (blocks : List ContentBlock) :
    execute_tool_calls tm blocks =
      ((toolUseBlocks blocks).map (blockResult tm),
       (toolUseBlocks blocks).any (blockRaises tm)) :=
  execute_tool_calls_eq tm blocks

/-- C3: when the stop reason of the first model response is not tool use,
or no tool manager was supplied, the run issues exactly one request,
returns the first text block of that response verbatim, and makes no tool
invocation. -/
theorem C3_direct_answer (q : String) (h : Option String) (tools : Option (List ToolDef))
    (tm : Option ToolManager) (r : Response) (rest : List Response) (t : String)
    (hstop : r.stop_reason ≠ "tool_use" ∨ tm = none)
    (htext : r.firstText = some t) :
    generate_response q h tools tm (r :: rest) =
      ⟨Except.ok t, [loopRequest [⟨"user", MessageContent.text q⟩] (build_system h) tools],
       [], Term.doneB⟩ := by
  rcases hstop with hstop | hstop
  · have hb : (r.stop_reason == "tool_use") = false := beq_eq_false_iff_ne.mpr hstop
    cases tm with
    | none => simp [generate_response, MAX_TOOL_ROUNDS, genLoop, callModel, htext]
    | some tmgr => simp [generate_response, MAX_TOOL_ROUNDS, genLoop, callModel, hb, htext]
  · subst hstop
    simp [generate_response, MAX_TOOL_ROUNDS, genLoop, callModel, htext]

/-- The loop issues at most `fuel` backend requests. -/
theorem genLoop_log_len (sys : String) (tools : Option (List ToolDef))
    (tm : Option ToolManager) :
    ∀ (fuel : Nat) (msgs : List Message) (s : GenState),
      ((genLoop sys tools tm fuel msgs s).2).log.length ≤ s.log.length + fuel := by
  intro fuel
  induction fuel with
  | zero => intro msgs s; simp [genLoop]
  | succ n ih =>
    intro msgs s
    obtain ⟨oracle, log, calls⟩ := s
    cases oracle with
    | nil => simp [genLoop, callModel]
    | cons r rest =>
      cases tm with
      | none =>
        cases hft : r.firstText <;> simp [genLoop, callModel, hft]
      | some tmgr =>
        cases hb : r.stop_reason == "tool_use" with
        | false =>
          cases hft : r.firstText <;> simp [genLoop, callModel, hb, hft]
        | true =>
          cases he : (execute_tool_calls tmgr r.content).2 with
          | true => simp [genLoop, callModel, hb, he]
          | false =>
            simp only [genLoop, callModel, hb, he, if_true, if_false]
            refine le_trans (ih _ _) ?_
            simp
            omega

/-- C1: every execution of `generate_response`, however many rounds request
tool use, issues at most `MAX_TOOL_ROUNDS + 1` model-backend requests (at
most 3 with the source constant). -/
theorem C1_model_calls_bounded (q : String) (h : Option String)
    (tools : Option (List ToolDef)) (tm : Option ToolManager) (oracle : List Response) :
    (generate_response q h tools tm oracle).log.length ≤ MAX_TOOL_ROUNDS + 1 := by
  have hlen := genLoop_log_len (build_system h) tools tm MAX_TOOL_ROUNDS
    [⟨"user", MessageContent.text q⟩] ⟨oracle, [], []⟩
  simp only [generate_response]
  split
  case _ t s heq =>
    rw [heq] at hlen
    simp at hlen
    simpa using le_trans hlen (Nat.le_succ _)
  case _ e s heq =>
    rw [heq] at hlen
    simp at hlen
    simpa using le_trans hlen (Nat.le_succ _)
  case _ msgs2 byErr s heq =>
    rw [heq] at hlen
    simp at hlen
    split
    case _ s1 heq2 =>
      have hl := callModel_log ⟨msgs2, build_system h, none, none⟩ s
      rw [heq2] at hl
      have hl2 : s1.log.length = s.log.length + 1 := by rw [hl]; simp
      simp only []
      omega
    case _ resp s1 heq2 =>
      have hl := callModel_log ⟨msgs2, build_system h, none, none⟩ s
      rw [heq2] at hl
      have hl2 : s1.log.length = s.log.length + 1 := by rw [hl]; simp
      split <;> simp only [] <;> omega

/-- Witness for C3 at a concrete input: a single end-turn response with a
text block. -/
theorem C3_direct_answer_witness :
    ((⟨"end_turn", [ContentBlock.text "hi"]⟩ : Response).stop_reason ≠ "tool_use" ∨
       (none : Option ToolManager) = none) ∧
    generate_response "q" none none none [⟨"end_turn", [ContentBlock.text "hi"]⟩] =
      ⟨Except.ok "hi",
       [loopRequest [⟨"user", MessageContent.text "q"⟩] (build_system none) none],
       [], Term.doneB⟩ :=
  ⟨Or.inr rfl,
   C3_direct_answer "q" none none none ⟨"end_turn", [ContentBlock.text "hi"]⟩ [] "hi"
     (Or.inr rfl) rfl⟩

/-- Appending splits an alternation check at the junction role. -/
theorem altRoles_append : ∀ (xs ys : List Message) (r : String),
    altRoles (xs ++ ys) r = (altRoles xs r && altRoles ys (endRole xs r)) := by
  intro xs
  induction xs with
  | nil => intro ys r; simp [altRoles, endRole]
  | cons m rest ih => intro ys r; simp [altRoles, endRole, ih, Bool.and_assoc]

/-- The expected role after an append is computed in two stages. -/
theorem endRole_append : ∀ (xs ys : List Message) (r : String),
    endRole (xs ++ ys) r = endRole ys (endRole xs r) := by
  intro xs
  induction xs with
  | nil => intro ys r; simp [endRole]
  | cons m rest ih => intro ys r; simp [endRole, ih]

/-- The loop request carries the current messages unchanged. -/
theorem loopRequest_messages (ms : List Message) (sys : String)
    (tools : Option (List ToolDef)) : (loopRequest ms sys tools).messages = ms := by
  unfold loopRequest; split <;> rfl

/-- Loop invariant: starting from a strictly alternating message sequence
that ends on a user turn, every request the loop issues carries a strictly
alternating sequence, and so does the sequence the loop hands to the
synthesis call. -/
theorem genLoop_alt (sys : String) (tools : Option (List ToolDef)) (tm : Option ToolManager) :
    ∀ (fuel : Nat) (msgs : List Message) (s : GenState),
      altRoles msgs "user" = true → endRole msgs "user" = "assistant" →
      (∀ req ∈ s.log, altRoles req.messages "user" = true) →
      (∀ req ∈ ((genLoop sys tools tm fuel msgs s).2).log,
          altRoles req.messages "user" = true) ∧
      (∀ (m : List Message) (b : Bool),
          (genLoop sys tools tm fuel msgs s).1 = LoopOut.exited m b →
          altRoles m "user" = true) := by
  intro fuel
  induction fuel with
  | zero =>
    intro msgs s halt hend hlog
    refine ⟨by simpa [genLoop] using hlog, ?_⟩
    intro m b hm
    simp [genLoop] at hm
    rw [← hm.1]
    exact halt
  | succ n ih =>
    intro msgs s halt hend hlog
    have hlog2 : ∀ req ∈ s.log ++ [loopRequest msgs sys tools],
        altRoles req.messages "user" = true := by
      intro req hr
      rcases List.mem_append.mp hr with h1 | h1
      · exact hlog req h1
      · simp at h1
        rw [h1, loopRequest_messages]
        exact halt
    obtain ⟨oracle, log, calls⟩ := s
    cases oracle with
    | nil =>
      refine ⟨?_, ?_⟩
      · intro req hr
        simp only [genLoop, callModel] at hr
        exact hlog2 req hr
      · intro m b hm
        simp [genLoop, callModel] at hm
    | cons r rest =>
      cases tm with
      | none =>
        refine ⟨?_, ?_⟩
        · intro req hr
          cases hft : r.firstText <;> simp only [genLoop, callModel, hft] at hr <;>
            exact hlog2 req hr
        · intro m b hm
          cases hft : r.firstText <;> simp [genLoop, callModel, hft] at hm
      | some tmgr =>
        have halt2 : altRoles (msgs ++ [⟨"assistant", MessageContent.blocks r.content⟩,
            ⟨"user", MessageContent.results (execute_tool_calls tmgr r.content).1⟩])
            "user" = true := by
          rw [altRoles_append, halt, hend]; rfl
        have hend2 : endRole (msgs ++ [⟨"assistant", MessageContent.blocks r.content⟩,
            ⟨"user", MessageContent.results (execute_tool_calls tmgr r.content).1⟩])
            "user" = "assistant" := by
          rw [endRole_append, hend]; rfl
        cases hb : r.stop_reason == "tool_use" with
        | false =>
          refine ⟨?_, ?_⟩
          · intro req hr
            cases hft : r.firstText <;> simp only [genLoop, callModel, hb, hft] at hr <;>
              exact hlog2 req hr
          · intro m b hm
            cases hft : r.firstText <;> simp [genLoop, callModel, hb, hft] at hm
        | true =>
          cases he : (execute_tool_calls tmgr r.content).2 with
          | true =>
            refine ⟨?_, ?_⟩
            · intro req hr
              simp only [genLoop, callModel, hb, he, ite_true, if_true] at hr
              simp at hr
              rcases hr with h1 | h1
              · exact hlog req h1
              · rw [h1, loopRequest_messages]; exact halt
            · intro m b hm
              simp [genLoop, callModel, hb, he] at hm
              rw [← hm.1]
              exact halt2
          | false =>
            have hrec := ih (msgs ++ [⟨"assistant", MessageContent.blocks r.content⟩,
                ⟨"user", MessageContent.results (execute_tool_calls tmgr r.content).1⟩])
              ⟨rest, log ++ [loopRequest msgs sys tools],
               calls ++ (toolUseBlocks r.content).map (fun b => (b.1, b.2.2))⟩
              halt2 hend2 hlog2
            refine ⟨?_, ?_⟩
            · intro req hr
              simp only [genLoop, callModel, hb, he, Bool.false_eq_true, ite_true, ite_false,
                if_true, if_false] at hr
              exact hrec.1 req hr
            · intro m b hm
              simp only [genLoop, callModel, hb, he, Bool.false_eq_true, ite_true, ite_false,
                if_true, if_false] at hm
              exact hrec.2 m b hm

/-- Every request of a whole run (synthesis call included) carries a message
sequence whose roles alternate user/assistant starting at user. -/
theorem run_log_alt (q : String) (h : Option String) (tools : Option (List ToolDef))
    (tm : Option ToolManager) (oracle : List Response) :
    ∀ req ∈ (generate_response q h tools tm oracle).log,
      altRoles req.messages "user" = true := by
  have hgl := genLoop_alt (build_system h) tools tm MAX_TOOL_ROUNDS
    [⟨"user", MessageContent.text q⟩] ⟨oracle, [], []⟩ rfl rfl (by simp)
  simp only [generate_response]
  split
  case _ t s heq =>
    rw [heq] at hgl
    intro req hr
    exact hgl.1 req hr
  case _ e s heq =>
    rw [heq] at hgl
    intro req hr
    exact hgl.1 req hr
  case _ msgs2 byErr s heq =>
    have halt2 := hgl.2 msgs2 byErr (by rw [heq])
    have hlogm : ∀ req ∈ s.log, altRoles req.messages "user" = true := by
      intro req hr
      apply hgl.1
      rw [heq]
      exact hr
    have hcl := callModel_log ⟨msgs2, build_system h, none, none⟩ s
    have hnew : ∀ req ∈ s.log ++ [(⟨msgs2, build_system h, none, none⟩ : Request)],
        altRoles req.messages "user" = true := by
      intro req hr
      rcases List.mem_append.mp hr with h1 | h1
      · exact hlogm req h1
      · simp at h1
        rw [h1]
        exact halt2
    split
    case _ s1 heq2 =>
      rw [heq2] at hcl
      intro req hr
      rw [show (⟨Except.error "model backend failure", s1.log, s1.calls,
        if byErr then Term.toolErrorC else Term.exhaustedA⟩ : Run).log = s1.log from rfl,
        hcl] at hr
      exact hnew req hr
    case _ resp s1 heq2 =>
      rw [heq2] at hcl
      split
      case _ t2 hft =>
        intro req hr
        rw [show (⟨Except.ok t2, s1.log, s1.calls,
          if byErr then Term.toolErrorC else Term.exhaustedA⟩ : Run).log = s1.log from rfl,
          hcl] at hr
        exact hnew req hr
      case _ hft =>
        intro req hr
        rw [show (⟨Except.error "no text attribute on first content block", s1.log, s1.calls,
          if byErr then Term.toolErrorC else Term.exhaustedA⟩ : Run).log = s1.log from rfl,
          hcl] at hr
        exact hnew req hr

/-- C2: whenever some tool call in a round raises — in the first round, or
in the second after a clean first — the raised error is wrapped as a tool
result prefixed with the error marker, the loop performs no further rounds,
exactly one additional tools-disabled model call follows whose text is
returned, and no tool-execution exception propagates out (the run result is
a normal `ok`). -/
theorem C2_tool_error_terminates :
    (∀ (q : String) (h : Option String) (tools : Option (List ToolDef)) (tmgr : ToolManager)
        (r1 r2 : Response) (rest : List Response) (t : String),
        r1.stop_reason = "tool_use" →
        (execute_tool_calls tmgr r1.content).2 = true →
        r2.firstText = some t →
        generate_response q h tools (some tmgr) (r1 :: r2 :: rest) =
          ⟨Except.ok t,
           [loopRequest [⟨"user", MessageContent.text q⟩] (build_system h) tools,
            ⟨[⟨"user", MessageContent.text q⟩,
              ⟨"assistant", MessageContent.blocks r1.content⟩,
              ⟨"user", MessageContent.results (execute_tool_calls tmgr r1.content).1⟩],
             build_system h, none, none⟩],
           (toolUseBlocks r1.content).map (fun b => (b.1, b.2.2)),
           Term.toolErrorC⟩) ∧
    (∀ (q : String) (h : Option String) (tools : Option (List ToolDef)) (tmgr : ToolManager)
        (r1 r2 r3 : Response) (rest : List Response) (t : String),
        r1.stop_reason = "tool_use" →
        (execute_tool_calls tmgr r1.content).2 = false →
        r2.stop_reason = "tool_use" →
        (execute_tool_calls tmgr r2.content).2 = true →
        r3.firstText = some t →
        generate_response q h tools (some tmgr) (r1 :: r2 :: r3 :: rest) =
          ⟨Except.ok t,
           [loopRequest [⟨"user", MessageContent.text q⟩] (build_system h) tools,
            loopRequest ([⟨"user", MessageContent.text q⟩,
              ⟨"assistant", MessageContent.blocks r1.content⟩,
              ⟨"user", MessageContent.results (execute_tool_calls tmgr r1.content).1⟩])
              (build_system h) tools,
            ⟨[⟨"user", MessageContent.text q⟩,
              ⟨"assistant", MessageContent.blocks r1.content⟩,
              ⟨"user", MessageContent.results (execute_tool_calls tmgr r1.content).1⟩,
              ⟨"assistant", MessageContent.blocks r2.content⟩,
              ⟨"user", MessageContent.results (execute_tool_calls tmgr r2.content).1⟩],
             build_system h, none, none⟩],
           (toolUseBlocks r1.content).map (fun b => (b.1, b.2.2)) ++
             (toolUseBlocks r2.content).map (fun b => (b.1, b.2.2)),
           Term.toolErrorC⟩) ∧
    (∀ (tmgr : ToolManager) (blocks : List ContentBlock)
        (b : String × String × ToolInput) (e : String),
        b ∈ toolUseBlocks blocks →
        tmgr b.1 b.2.2 = Except.error e →
        (⟨b.2.1, "Tool execution error: " ++ e⟩ : ToolResult) ∈
            (execute_tool_calls tmgr blocks).1 ∧
          (execute_tool_calls tmgr blocks).2 = true) := by
  refine ⟨?_, ?_, ?_⟩
  · intro q h tools tmgr r1 r2 rest t hstop herr hft
    have hb1 : (r1.stop_reason == "tool_use") = true := by simp [hstop]
    simp [generate_response, MAX_TOOL_ROUNDS, genLoop, callModel, hb1, herr, hft]
  · intro q h tools tmgr r1 r2 r3 rest t hstop1 he1 hstop2 he2 hft
    have hb1 : (r1.stop_reason == "tool_use") = true := by simp [hstop1]
    have hb2 : (r2.stop_reason == "tool_use") = true := by simp [hstop2]
    simp [generate_response, MAX_TOOL_ROUNDS, genLoop, callModel, hb1, hb2, he1, he2, hft]
  · intro tmgr blocks b e hmem herr
    rw [execute_tool_calls_eq]
    constructor
    · exact List.mem_map.mpr ⟨b, hmem, by simp [blockResult, herr]⟩
    · exact List.any_eq_true.mpr ⟨b, hmem, by simp [blockRaises, herr]⟩

/-- Witness for C2: one tool-use round whose only tool call raises, then a
text response; exactly two requests, the second tools-free, the error text
wrapped, the raise not propagated. -/
theorem C2_tool_error_terminates_witness :
    (⟨"tool_use", [ContentBlock.toolUse "t" "id1" []]⟩ : Response).stop_reason = "tool_use" ∧
    (execute_tool_calls (fun _ _ => Except.error "boom")
      [ContentBlock.toolUse "t" "id1" []]).2 = true ∧
    generate_response "q" none (some ["d"]) (some (fun _ _ => Except.error "boom"))
        [⟨"tool_use", [ContentBlock.toolUse "t" "id1" []]⟩,
         ⟨"end_turn", [ContentBlock.text "recovered"]⟩] =
      ⟨Except.ok "recovered",
       [loopRequest [⟨"user", MessageContent.text "q"⟩] (build_system none) (some ["d"]),
        ⟨[⟨"user", MessageContent.text "q"⟩,
          ⟨"assistant", MessageContent.blocks [ContentBlock.toolUse "t" "id1" []]⟩,
          ⟨"user", MessageContent.results (execute_tool_calls
            (fun _ _ => Except.error "boom") [ContentBlock.toolUse "t" "id1" []]).1⟩],
         build_system none, none, none⟩],
       (toolUseBlocks [ContentBlock.toolUse "t" "id1" []]).map (fun b => (b.1, b.2.2)),
       Term.toolErrorC⟩ :=
  ⟨rfl, rfl,
   C2_tool_error_terminates.1 "q" none (some ["d"]) (fun _ _ => Except.error "boom")
     ⟨"tool_use", [ContentBlock.toolUse "t" "id1" []]⟩
     ⟨"end_turn", [ContentBlock.text "recovered"]⟩ [] "recovered" rfl rfl rfl⟩

/-- C4: the bundled tool results carry exactly one invocation id per
tool-use block of the assistant message of the round, in block order; a tool
round appends exactly two messages — the assistant tool-use turn then one
user message bundling the results of that round — before the next model call
(whether the round continues or breaks on error); and every request of
every run carries a strictly alternating user/assistant message sequence. -/
theorem C4_tool_round_appends :
    (∀ (tmgr : ToolManager) (blocks : List ContentBlock),
        (execute_tool_calls tmgr blocks).1.map (fun tr => tr.tool_use_id) =
          (toolUseBlocks blocks).map (fun b => b.2.1)) ∧
    (∀ (sys : String) (tools : Option (List ToolDef)) (tmgr : ToolManager)
        (fuel : Nat) (msgs : List Message) (log : List Request)
        (calls : List (String × ToolInput)) (r : Response) (rest : List Response),
        r.stop_reason = "tool_use" →
        ((execute_tool_calls tmgr r.content).2 = false →
          genLoop sys tools (some tmgr) (fuel + 1) msgs ⟨r :: rest, log, calls⟩ =
            genLoop sys tools (some tmgr) fuel
              (msgs ++ [⟨"assistant", MessageContent.blocks r.content⟩,
                ⟨"user", MessageContent.results (execute_tool_calls tmgr r.content).1⟩])
              ⟨rest, log ++ [loopRequest msgs sys tools],
               calls ++ (toolUseBlocks r.content).map (fun b => (b.1, b.2.2))⟩) ∧
        ((execute_tool_calls tmgr r.content).2 = true →
          genLoop sys tools (some tmgr) (fuel + 1) msgs ⟨r :: rest, log, calls⟩ =
            (LoopOut.exited (msgs ++ [⟨"assistant", MessageContent.blocks r.content⟩,
                ⟨"user", MessageContent.results (execute_tool_calls tmgr r.content).1⟩]) true,
             ⟨rest, log ++ [loopRequest msgs sys tools],
              calls ++ (toolUseBlocks r.content).map (fun b => (b.1, b.2.2))⟩))) ∧
    (∀ (q : String) (h : Option String) (tools : Option (List ToolDef))
        (tm : Option ToolManager) (oracle : List Response),
        ∀ req ∈ (generate_response q h tools tm oracle).log,
          altRoles req.messages "user" = true) := by
  refine ⟨?_, ?_, ?_⟩
  · intro tmgr blocks
    have hf : ∀ b : String × String × ToolInput,
        (blockResult tmgr b).tool_use_id = b.2.1 := by
      intro b; unfold blockResult; cases tmgr b.1 b.2.2 <;> rfl
    rw [execute_tool_calls_eq]
    simp [List.map_map, Function.comp, hf]
  · intro sys tools tmgr fuel msgs log calls r rest hstop
    have hb : (r.stop_reason == "tool_use") = true := by simp [hstop]
    constructor
    · intro he
      simp [genLoop, callModel, hb, he]
    · intro he
      simp [genLoop, callModel, hb, he]
  · exact run_log_alt

/-- Witness for C4: a concrete one-block tool round appends exactly the
assistant turn and the bundled user result message. -/
theorem C4_tool_round_appends_witness :
    ((⟨"tool_use", [ContentBlock.toolUse "t" "i" []]⟩ : Response).stop_reason = "tool_use") ∧
    genLoop "sys" none (some (fun _ _ => Except.ok "out")) 1
        [⟨"user", MessageContent.text "q"⟩]
        ⟨[⟨"tool_use", [ContentBlock.toolUse "t" "i" []]⟩], [], []⟩ =
      genLoop "sys" none (some (fun _ _ => Except.ok "out")) 0
        ([⟨"user", MessageContent.text "q"⟩] ++
          [⟨"assistant", MessageContent.blocks [ContentBlock.toolUse "t" "i" []]⟩,
           ⟨"user", MessageContent.results (execute_tool_calls
             (fun _ _ => Except.ok "out") [ContentBlock.toolUse "t" "i" []]).1⟩])
        ⟨[], [] ++ [loopRequest [⟨"user", MessageContent.text "q"⟩] "sys" none],
         [] ++ (toolUseBlocks [ContentBlock.toolUse "t" "i" []]).map
           (fun b => (b.1, b.2.2))⟩ :=
  ⟨rfl,
   (C4_tool_round_appends.2.1 "sys" none (fun _ _ => Except.ok "out") 0
      [⟨"user", MessageContent.text "q"⟩] [] []
      ⟨"tool_use", [ContentBlock.toolUse "t" "i" []]⟩ [] rfl).1 rfl⟩

/-- C6: across two consecutive executions of the retrieval tool the citation
list is overwritten, not appended — after a 2-result search followed by a
1-result search the final citation list holds exactly the single citation
produced by the second search. -/
theorem C6_last_sources_overwritten (tool : CourseSearchTool) (q1 q2 : String)
    (c1 c2 : Option String) (l1 l2 : Option Int)
    (h1e : (tool.store.search q1 c1 l1).error = none)
    (h1d : (tool.store.search q1 c1 l1).documents.length = 2)
    (h1m : (tool.store.search q1 c1 l1).metadata.length = 2)
    (h2e : (tool.store.search q2 c2 l2).error = none)
    (h2d : (tool.store.search q2 c2 l2).documents.length = 1)
    (h2m : (tool.store.search q2 c2 l2).metadata.length = 1) :
    ((tool.execute q1 c1 l1).2).last_sources.length = 2 ∧
    (((tool.execute q1 c1 l1).2).execute q2 c2 l2).2.last_sources =
      ((tool.store.search q2 c2 l2).documents.zip
        (tool.store.search q2 c2 l2).metadata).map (fun p => citationOf tool.store p.2) ∧
    (((tool.execute q1 c1 l1).2).execute q2 c2 l2).2.last_sources.length = 1 := by
  have hne1 : (tool.store.search q1 c1 l1).documents.isEmpty = false := by
    cases hd : (tool.store.search q1 c1 l1).documents with
    | nil => rw [hd] at h1d; simp at h1d
    | cons a t => simp
  have hne2 : (tool.store.search q2 c2 l2).documents.isEmpty = false := by
    cases hd : (tool.store.search q2 c2 l2).documents with
    | nil => rw [hd] at h2d; simp at h2d
    | cons a t => simp
  refine ⟨?_, ?_, ?_⟩
  · simp [CourseSearchTool.execute, h1e, hne1, List.length_zip, h1d, h1m]
  · simp [CourseSearchTool.execute, h1e, hne1, h2e, hne2]
  · simp [CourseSearchTool.execute, h1e, hne1, h2e, hne2, List.length_zip, h2d, h2m]

/-- Witness for C6: a concrete store yielding 2 then 1 results leaves a
final citation list of length 1 (after an intermediate list of length 2). -/
theorem C6_last_sources_overwritten_witness :
    (demoTool.store.search "first" none none).error = none ∧
    (demoTool.store.search "first" none none).documents.length = 2 ∧
    (demoTool.store.search "second" none none).documents.length = 1 ∧
    ((demoTool.execute "first" none none).2).last_sources.length = 2 ∧
    (((demoTool.execute "first" none none).2).execute "second" none none).2.last_sources.length
      = 1 :=
  ⟨rfl, rfl, rfl,
   (C6_last_sources_overwritten demoTool "first" "second" none none none none
      rfl rfl rfl rfl rfl rfl).1,
   (C6_last_sources_overwritten demoTool "first" "second" none none none none
      rfl rfl rfl rfl rfl rfl).2.2⟩

/-- C7: for a query carrying a session id, the text that reaches the
controller is the raw text wrapped in the fixed instructional template,
while the stored exchange uses the original unwrapped raw text — which is
never equal to the wrapped form. -/
theorem C7_wraps_query_stores_raw (raw sid : String)
    (generate : String → Option String → String)
    (get_history : String → Option String) :
    (rag_query raw (some sid) generate get_history).prompt = wrap_query raw ∧
    wrap_query raw = "Answer this question about course materials: " ++ raw ∧
    (rag_query raw (some sid) generate get_history).stored =
      some (sid, raw, (rag_query raw (some sid) generate get_history).answer) ∧
    wrap_query raw ≠ raw := by
  refine ⟨rfl, rfl, rfl, ?_⟩
  intro heq
  have hlen := congrArg String.length heq
  have hpos : 0 < ("Answer this question about course materials: " : String).length := by
    decide
  simp only [wrap_query, String.length_append] at hlen
  omega

/-- Counterexample to C8 as stated: a course title can itself contain the
word "Lesson", so the formatted segment of a lesson-less chunk can contain
"Lesson" even though its header carries no lesson reference. -/
theorem C8_lesson_word_counterexample :
    ((⟨⟨fun _ _ _ => ⟨["chunk text"], [⟨"Lesson Planning 101", none⟩], none⟩,
        fun _ _ => none⟩, []⟩ : CourseSearchTool).execute "q" none none).1 =
      "[Lesson Planning 101]" ++ "\n" ++ "chunk text" ∧
    (⟨"Lesson Planning 101", none⟩ : ChunkMeta).lesson_number = none ∧
    occursIn "Lesson"
      ((⟨⟨fun _ _ _ => ⟨["chunk text"], [⟨"Lesson Planning 101", none⟩], none⟩,
          fun _ _ => none⟩, []⟩ : CourseSearchTool).execute "q" none none).1 = true := by
  refine ⟨by decide, rfl, by decide⟩

/-- C8 (amended): a chunk whose metadata lacks a lesson number is formatted
as exactly `[<course title>]` + newline + chunk text, with no lesson
reference appended (the word "Lesson" can then only come from the course
title or the chunk text themselves); with lesson metadata the header is
`[<course title> - Lesson <n>]`; and a successful execution output is the
blank-line join of the per-chunk segments. -/
theorem C8_header_forms :
    (∀ (meta : ChunkMeta) (doc : String), meta.lesson_number = none →
        formatSegment meta doc = "[" ++ meta.course_title ++ "]" ++ "\n" ++ doc) ∧
    (∀ (meta : ChunkMeta) (doc : String) (n : Int), meta.lesson_number = some n →
        formatSegment meta doc =
          "[" ++ meta.course_title ++ " - Lesson " ++ toString n ++ "]" ++ "\n" ++ doc) ∧
    (∀ (tool : CourseSearchTool) (q : String) (c : Option String) (l : Option Int),
        (tool.store.search q c l).error = none →
        (tool.store.search q c l).documents.isEmpty = false →
        (tool.execute q c l).1 = String.intercalate "\n\n"
          (((tool.store.search q c l).documents.zip (tool.store.search q c l).metadata).map
            (fun p => formatSegment p.2 p.1))) := by
  refine ⟨?_, ?_, ?_⟩
  · intro meta doc hnone
    simp [formatSegment, hnone]
  · intro meta doc n hsome
    simp [formatSegment, hsome, String.append_assoc]
  · intro tool q c l herr hne
    simp [CourseSearchTool.execute, herr, hne]

/-- Witness for C8 (amended) at the very input of the test: a lesson-less chunk of
the course "Python Course" formats as `[Python Course]` and contains no
"Lesson". -/
theorem C8_header_forms_witness :
    ((⟨"Python Course", none⟩ : ChunkMeta).lesson_number = none) ∧
    formatSegment ⟨"Python Course", none⟩ "chunk content" =
      "[" ++ "Python Course" ++ "]" ++ "\n" ++ "chunk content" ∧
    occursIn "Lesson" (formatSegment ⟨"Python Course", none⟩ "chunk content") = false :=
  ⟨rfl, C8_header_forms.1 ⟨"Python Course", none⟩ "chunk content" rfl, by decide⟩
